import Mathlib

/-!
# Verification of the trinity watchdog (src/watchdog.c)

A shallow embedding of the watchdog process of the trinity syscall fuzzer.
The shared-memory segment (`shm`) is modelled as an explicit state record
`Shm`; the watchdog's functions become pure state transformers.  The
operating-system environment (process-liveness probes via `kill(pid, 0)` /
`pid_alive`, the `pid_is_valid` range check from pids.c, and the wall clock
read by `gettimeofday`) is a parameter `Env`.  SIGKILL signals sent by the
watchdog have no effect on the shared state; where a claim is about them
they are collected in an explicit list of target pids.

C `unsigned long` fields are modelled as `Nat` reduced mod `2 ^ 64` where
the code performs arithmetic on them (the throughput delta in
`check_shm_sanity`); `unsigned int` counters (`kill_count`) are incremented
mod `2 ^ 32`; `time_t` values are `Int`.  Unbounded C `while` loops are
embedded with an explicit fuel argument and return `none` when the fuel
runs out, so that non-termination of the source loop is expressible.
-/

namespace Trinity

/-- Process identifier (C `pid_t`). -/
abbrev Pid := Int

/-- The empty-slot sentinel from pids.h (not under src/): an occupied slot
never holds this value. -/
def EMPTY_PIDSLOT : Pid := -1

/-- Result of the non-blocking liveness probe `kill(pid, 0)` (equivalently
`pid_alive` from pids.c): success, failure with `errno == ESRCH`
("no such process"), or failure with any other `errno`. -/
inductive Probe where
  | alive : Probe
  | esrch : Probe
  | err : Probe
deriving DecidableEq, Repr

/-- The OS environment seen by one watchdog tick: the liveness probe, the
`pid_is_valid` range check (pids.c, external to src/), and the current
`gettimeofday` seconds.  Within one modelled call these are fixed. -/
structure Env where
  probe : Pid → Probe
  valid : Pid → Bool
  now : Int

/-- Exit reasons from trinity.h used by the watchdog.  `STILL_RUNNING` is
the non-terminal default. -/
inductive ExitReason where
  | STILL_RUNNING
  | EXIT_REACHED_COUNT
  | EXIT_PID_OUT_OF_RANGE
  | EXIT_SHM_CORRUPTION
  | EXIT_MAIN_DISAPPEARED
deriving DecidableEq, Repr

/-- Lock state from locks.h: `UNLOCKED` (the spec's `FREE`) or `LOCKED`. -/
inductive LockState where
  | UNLOCKED
  | LOCKED
deriving DecidableEq, Repr

/-- A `lock_t` from locks.h: state, owning pid, and the contention
counter. -/
structure lock_t where
  lock : LockState
  owner : Pid
  contention : Nat
deriving DecidableEq, Repr

/-- Return status of `check_shm_sanity`.  `SHM_OK` is 0 in the C code
(the only falsy value), so `if (check_shm_sanity())` tests `≠ SHM_OK`. -/
inductive ShmStatus where
  | SHM_OK
  | SHM_CORRUPT
deriving DecidableEq, Repr

def UINT_SIZE : Nat := 2 ^ 32

def UINT64_SIZE : Nat := 2 ^ 64

/-- Point update of an index-addressed field, modelling `a[i] = v` on the
fixed-capacity per-child arrays of the shm. -/
def upd {α : Type} (f : Nat → α) (i : Nat) (v : α) : Nat → α :=
  fun j => if j = i then v else f j

/-- The shared-memory segment, restricted to the fields the watchdog
reads or writes.  Per-child arrays (`pids`, `tv`, `kill_count`) are
functions from slot index; `num_children` is the `for_each_child`
iteration bound (`max_children`). -/
structure Shm where
  num_children : Nat
  pids : Nat → Pid
  tv : Nat → Int
  kill_count : Nat → Nat
  running_childs : Nat
  total_syscalls_done : Nat
  previous_op_count : Nat
  exit_reason : ExitReason
  mainpid : Pid
  spawn_no_more : Bool

/-- The unsigned-long subtraction `total_syscalls_done - previous_op_count`
performed by `check_shm_sanity` (wraps mod `2 ^ 64`). -/
def opDelta (total prev : Nat) : Nat :=
  (total % UINT64_SIZE + (UINT64_SIZE - prev % UINT64_SIZE)) % UINT64_SIZE

/-- `check_shm_sanity` (watchdog.c:36-67).  If no children are running it
is trivially OK; an occupied slot with an out-of-range pid latches
`EXIT_PID_OUT_OF_RANGE` and returns `SHM_CORRUPT`; otherwise a throughput
delta above 500000 latches `EXIT_SHM_CORRUPTION` (note: the function still
returns `SHM_OK` on that path), and the previous-count snapshot is
updated. -/
def check_shm_sanity (env : Env) (s : Shm) : ShmStatus × Shm :=
  if s.running_childs = 0 then (.SHM_OK, s)
  else if (List.range s.num_children).any
      (fun i => s.pids i != EMPTY_PIDSLOT && !(env.valid (s.pids i))) then
    (.SHM_CORRUPT, { s with exit_reason := .EXIT_PID_OUT_OF_RANGE })
  else
    let s1 :=
      if opDelta s.total_syscalls_done s.previous_op_count > 500000 then
        { s with exit_reason := .EXIT_SHM_CORRUPTION }
      else s
    (.SHM_OK, { s1 with previous_op_count := s1.total_syscalls_done })

def STEAL_THRESHOLD : Nat := 100000

/-- `unlock` from locks.c (not under src/).  Modelled from the spec:
"force the lock to `FREE`" — the state becomes `UNLOCKED`; owner and
contention are not touched. -/
def unlock (l : lock_t) : lock_t :=
  { l with lock := .UNLOCKED }

/-- `check_lock` (watchdog.c:338-364).  Returns the updated lock and the
list of pids sent SIGKILL (via `kill_pid`).  A `LOCKED` lock whose owner's
probe fails with `ESRCH` is unlocked; any other probe failure returns with
no action; an alive owner with `contention > STEAL_THRESHOLD` is killed
and the lock released. -/
def check_lock (env : Env) (l : lock_t) : lock_t × List Pid :=
  if l.lock ≠ LockState.LOCKED then (l, [])
  else
    match env.probe l.owner with
    | .esrch => (unlock l, [])
    | .err => (l, [])
    | .alive =>
      if l.contention > STEAL_THRESHOLD then (unlock l, [l.owner])
      else (l, [])

/-- `reap_child` from child.c (not under src/).  Modelled from the spec:
"remove its bookkeeping (clear the slot, decrement `running_count`)" — the
slot holding the given pid (the first such, scanning in slot order) is set
to `EMPTY_PIDSLOT` and `running_childs` is decremented. -/
def reap_child (pid : Pid) (s : Shm) : Shm :=
  match (List.range s.num_children).find? (fun i => s.pids i == pid) with
  | some i => { s with pids := upd s.pids i EMPTY_PIDSLOT,
                       running_childs := s.running_childs - 1 }
  | none => s

/-- The `for_each_child` loop of `reap_dead_kids` (watchdog.c:75-99) over
the remaining slot indices, carrying the `alive` counter.  An occupied
slot whose probe fails with `ESRCH` is reaped; any other failure is only
logged; a successful probe counts the slot as alive.  After each occupied
slot the loop returns 0 early if `running_childs` has reached 0 (the
`continue` on an empty slot skips that check, as in the C; the single
post-branch check of the C body is written once per probe outcome here,
on the state that branch produced). -/
def reap_loop (env : Env) : List Nat → Shm → Nat → Nat × Shm
  | [], s, alive => (alive, s)
  | i :: rest, s, alive =>
    if s.pids i = EMPTY_PIDSLOT then reap_loop env rest s alive
    else
      match env.probe (s.pids i) with
      | .esrch =>
        if (reap_child (s.pids i) s).running_childs = 0 then
          (0, reap_child (s.pids i) s)
        else reap_loop env rest (reap_child (s.pids i) s) alive
      | .err =>
        if s.running_childs = 0 then (0, s)
        else reap_loop env rest s alive
      | .alive =>
        if s.running_childs = 0 then (0, s)
        else reap_loop env rest s (alive + 1)

/-- `reap_dead_kids` (watchdog.c:69-105): returns the `alive` count and
the updated shm.  (The `reaped` counter only feeds a log line and is not
modelled.) -/
def reap_dead_kids (env : Env) (s : Shm) : Nat × Shm :=
  reap_loop env (List.range s.num_children) s 0

/-- How `kill_all_kids` returned: `drained` is the normal exit of the
`while (running_childs > 0)` loop (followed by the defensive slot clear),
`reapedEmpty` is the early `return` when `reap_dead_kids` reported zero
alive workers, `corrupt` is the early `return` when the re-run sanity
check failed. -/
inductive KakExit where
  | drained
  | reapedEmpty
  | corrupt
deriving DecidableEq, Repr

/-- The `while` loop of `kill_all_kids` (watchdog.c:114-149) with explicit
fuel; `none` means the fuel ran out.  One iteration: reap dead kids;
return early if none alive; SIGKILL every occupied slot (an external
signal with no effect on the shm, so not recorded here); sleep; re-run
`check_shm_sanity` and return early if it is not `SHM_OK`.  When the loop
condition fails, every pid slot is defensively cleared before
returning. -/
def kak_loop (env : Env) : Nat → Shm → Option (KakExit × Shm)
  | 0, _ => none
  | fuel + 1, s =>
    if s.running_childs > 0 then
      let r := reap_dead_kids env s
      if r.1 = 0 then some (.reapedEmpty, r.2)
      else
        let c := check_shm_sanity env r.2
        if c.1 ≠ ShmStatus.SHM_OK then some (.corrupt, c.2)
        else kak_loop env fuel c.2
    else
      some (.drained, { s with pids := fun _ => EMPTY_PIDSLOT })

/-- `kill_all_kids` (watchdog.c:107-150): latch `spawn_no_more`, then run
the drain loop. -/
def kill_all_kids (env : Env) (fuel : Nat) (s : Shm) : Option (KakExit × Shm) :=
  kak_loop env fuel { s with spawn_no_more := true }

/-- `__check_main` (watchdog.c:152-176).  With a zero `mainpid` it returns
`FALSE` at once.  On a failed probe it first checks whether an exit reason
is already latched and, if so, returns `FALSE` without touching the state
(in particular without clearing `mainpid`); otherwise `ESRCH` latches
`EXIT_MAIN_DISAPPEARED` and clears `mainpid`, and any other error is only
logged. -/
def __check_main (env : Env) (s : Shm) : Bool × Shm :=
  if s.mainpid = 0 then (false, s)
  else
    match env.probe s.mainpid with
    | .alive => (true, s)
    | .esrch =>
      if s.exit_reason ≠ ExitReason.STILL_RUNNING then (false, s)
      else (false, { s with exit_reason := .EXIT_MAIN_DISAPPEARED, mainpid := 0 })
    | .err =>
      if s.exit_reason ≠ ExitReason.STILL_RUNNING then (false, s)
      else (false, s)

/-- The `while (shm->mainpid != 0)` waiting loop of `check_main_alive`
(watchdog.c:184-191), with explicit fuel; `none` means the fuel ran out
(the source loop has no other bound).  Each iteration re-checks main and,
only when main is still alive, sleeps one tick and runs the shutdown
coordinator (with its own fuel). -/
def cma_loop (env : Env) (kakFuel : Nat) : Nat → Shm → Option (Bool × Shm)
  | 0, _ => none
  | fuel + 1, s =>
    if s.mainpid ≠ 0 then
      let r := __check_main env s
      if r.1 then
        match kill_all_kids env kakFuel r.2 with
        | some p => cma_loop env kakFuel fuel p.2
        | none => none
      else cma_loop env kakFuel fuel r.2
    else some (false, s)

/-- `check_main_alive` (watchdog.c:178-197): if an exit reason is latched,
enter the waiting loop; otherwise a single `__check_main`. -/
def check_main_alive (env : Env) (kakFuel fuel : Nat) (s : Shm) :
    Option (Bool × Shm) :=
  if s.exit_reason ≠ ExitReason.STILL_RUNNING then cma_loop env kakFuel fuel s
  else some (__check_main env s)

/-- One iteration of the `for_each_child` loop of `check_children`
(watchdog.c:281-328) on slot `i`: skip empty slots and slots with no
recorded timestamp; reset a timestamp more than 3 seconds in the future
(wrap); reset a timestamp more than 1000 seconds stale (garbage); at
exactly 30 seconds of no progress, bump the slot's `kill_count` and
SIGKILL the worker; at 40 or more seconds, bump `kill_count` and SIGKILL
on every tick.  Returns the updated shm and the list of pids signalled
(`kill_pid`); `stuck_syscall_info` and the log lines are diagnostics with
no shm effect and are not modelled.  `gettimeofday` is the fixed
`env.now` of the tick. -/
def child_tick (env : Env) (s : Shm) (i : Nat) : Shm × List Pid :=
  if s.pids i = EMPTY_PIDSLOT then (s, [])
  else if s.tv i = 0 then (s, [])
  else if s.tv i > env.now + 3 then
    ({ s with tv := upd s.tv i env.now }, [])
  else if env.now - s.tv i > 1000 then
    ({ s with tv := upd s.tv i env.now }, [])
  else
    let s1 :=
      if env.now - s.tv i = 30 then
        { s with kill_count := upd s.kill_count i ((s.kill_count i + 1) % UINT_SIZE) }
      else s
    let k1 : List Pid := if env.now - s.tv i = 30 then [s.pids i] else []
    if env.now - s.tv i ≥ 40 then
      ({ s1 with kill_count := upd s1.kill_count i ((s1.kill_count i + 1) % UINT_SIZE) },
        k1 ++ [s.pids i])
    else (s1, k1)

/-- The `for_each_child` loop of `check_children` over the remaining slot
indices, threading the shm and collecting the signalled pids in order. -/
def cc_loop (env : Env) : List Nat → Shm → Shm × List Pid
  | [], s => (s, [])
  | i :: rest, s =>
    let r := child_tick env s i
    let r2 := cc_loop env rest r.1
    (r2.1, r.2 ++ r2.2)

/-- `check_children` (watchdog.c:274-329). -/
def check_children (env : Env) (s : Shm) : Shm × List Pid :=
  cc_loop env (List.range s.num_children) s

/-- Number of occupied slots among the indices `L` (a measure used to
state properties of the reaper, not a function of the C code). -/
def occupiedIn (s : Shm) (L : List Nat) : Nat :=
  L.countP (fun i => s.pids i != EMPTY_PIDSLOT)

/-- Number of occupied slots of the whole table. -/
def occupiedCount (s : Shm) : Nat :=
  occupiedIn s (List.range s.num_children)

/-- Number of slots among `L` that are occupied and whose pid's liveness
probe reports alive (a measure used to state properties of the reaper). -/
def aliveIn (env : Env) (s : Shm) (L : List Nat) : Nat :=
  L.countP (fun i =>
    s.pids i != EMPTY_PIDSLOT && env.probe (s.pids i) == Probe.alive)

/-- A concrete shm state used by several concrete evaluations: one slot,
pid 5, one running child. -/
def shm1 : Shm where
  num_children := 1
  pids := fun _ => 5
  tv := fun _ => 0
  kill_count := fun _ => 0
  running_childs := 1
  total_syscalls_done := 600001
  previous_op_count := 0
  exit_reason := .STILL_RUNNING
  mainpid := 1
  spawn_no_more := false

/-- Environment where every probe reports alive and every pid is in
range. -/
def envAllValid : Env where
  probe := fun _ => .alive
  valid := fun _ => true
  now := 100

/-- Shared state with a terminal exit reason latched and `mainpid = 42`. -/
def shmC2 : Shm :=
  { shm1 with exit_reason := .EXIT_REACHED_COUNT, mainpid := 42 }

/-- Environment in which every process is dead (`ESRCH`). -/
def envAllDead : Env where
  probe := fun _ => .esrch
  valid := fun _ => true
  now := 0

/-- Shared state with the budget-reached reason already latched and one
running child (pid 5). -/
def shmC3 : Shm :=
  { shm1 with exit_reason := .EXIT_REACHED_COUNT, total_syscalls_done := 0 }

/-- Environment where every probe says alive but every pid is out of
range (models shm corruption appearing during shutdown). -/
def envAllInvalid : Env where
  probe := fun _ => .alive
  valid := fun _ => false
  now := 0

/-- Two occupied slots (pids 7 and 8), both counted in `running_childs`. -/
def shmC4 : Shm where
  num_children := 2
  pids := fun i => if i = 0 then 7 else 8
  tv := fun _ => 0
  kill_count := fun _ => 0
  running_childs := 2
  total_syscalls_done := 0
  previous_op_count := 0
  exit_reason := .EXIT_REACHED_COUNT
  mainpid := 1
  spawn_no_more := false

/-- Environment where pid 7 is definitively dead and every other probe
fails with an indeterminate error. -/
def envC4 : Env where
  probe := fun p => if p = 7 then .esrch else .err
  valid := fun _ => true
  now := 0

/-- Shared state whose drain loop exits immediately: no running
children. -/
def shmDone : Shm := { shm1 with running_childs := 0 }

/-- The state `kill_all_kids` produces from `shmDone` on its normal
(drained) exit: `spawn_no_more` latched and every slot cleared. -/
def shmDoneCleared : Shm :=
  { shmDone with spawn_no_more := true, pids := fun _ => EMPTY_PIDSLOT }

/-- One occupied slot (pid 5) whose progress timestamp is `t`; used with
`envAllValid` (whose clock reads 100) to realise concrete staleness
deltas. -/
def shmTv (t : Int) : Shm := { shm1 with tv := fun _ => t }

/-- Environment where every liveness probe fails with an errno other than
`ESRCH` (indeterminate). -/
def envAllErr : Env where
  probe := fun _ => .err
  valid := fun _ => true
  now := 0

/-- Two occupied slots (pids 7 and 9), `running_childs` consistent with
the table. -/
def shmC8 : Shm where
  num_children := 2
  pids := fun i => if i = 0 then 7 else 9
  tv := fun _ => 0
  kill_count := fun _ => 0
  running_childs := 2
  total_syscalls_done := 0
  previous_op_count := 0
  exit_reason := .STILL_RUNNING
  mainpid := 1
  spawn_no_more := false

/-- Environment where pid 7 is definitively dead and every other pid is
alive. -/
def envC8 : Env where
  probe := fun p => if p = 7 then .esrch else .alive
  valid := fun _ => true
  now := 0

@[simp] theorem upd_same {α : Type} (f : Nat → α) (i : Nat) (v : α) :
    upd f i v i = v := by
  simp [upd]

@[simp] theorem upd_ne {α : Type} (f : Nat → α) (i j : Nat) (v : α)
    (h : j ≠ i) : upd f i v j = f j := by
  simp [upd, h]

/-- C1, counterexample.  With one running child, a valid pid and a
throughput jump of 600001 > 500000, `check_shm_sanity` latches
`EXIT_SHM_CORRUPTION` but returns `SHM_OK`, not `SHM_CORRUPT` as the
claim states. -/
theorem check_shm_sanity_big_delta_returns_ok :
    opDelta shm1.total_syscalls_done shm1.previous_op_count > 500000 ∧
    (check_shm_sanity envAllValid shm1).1 = ShmStatus.SHM_OK ∧
    (check_shm_sanity envAllValid shm1).2.exit_reason =
      ExitReason.EXIT_SHM_CORRUPTION := by
  refine ⟨by decide, by decide, by decide⟩

/-- C1, amended.  For every shared state with at least one running child
and every occupied pid in the valid range, a throughput delta exceeding
500000 between two consecutive sanity checks latches
`EXIT_SHM_CORRUPTION`, updates the previous-count snapshot, and the call
returns `SHM_OK` (the corruption is surfaced only through the
`exit_reason` latch, not the return value). -/
theorem check_shm_sanity_throughput_latch (env : Env) (s : Shm)
    (hrun : s.running_childs ≠ 0)
    (hvalid : ∀ i, i < s.num_children → s.pids i ≠ EMPTY_PIDSLOT →
      env.valid (s.pids i) = true)
    (hle : s.previous_op_count ≤ s.total_syscalls_done)
    (hlt : s.total_syscalls_done < UINT64_SIZE)
    (hdelta : s.total_syscalls_done - s.previous_op_count > 500000) :
    (check_shm_sanity env s).1 = ShmStatus.SHM_OK ∧
    (check_shm_sanity env s).2.exit_reason = ExitReason.EXIT_SHM_CORRUPTION ∧
    (check_shm_sanity env s).2.previous_op_count = s.total_syscalls_done := by
  have hany : (List.range s.num_children).any
      (fun i => s.pids i != EMPTY_PIDSLOT && !(env.valid (s.pids i))) = false := by
    rw [List.any_eq_false]
    intro i hi
    rw [List.mem_range] at hi
    simp only [Bool.and_eq_true, bne_iff_ne, Bool.not_eq_true', not_and,
      Bool.and_eq_false_iff]
    intro hocc
    simp [hvalid i hi hocc]
  have hwrap : opDelta s.total_syscalls_done s.previous_op_count =
      s.total_syscalls_done - s.previous_op_count := by
    unfold opDelta
    have hplt : s.previous_op_count < UINT64_SIZE := lt_of_le_of_lt hle hlt
    rw [Nat.mod_eq_of_lt hlt, Nat.mod_eq_of_lt hplt]
    have h1 : s.total_syscalls_done + (UINT64_SIZE - s.previous_op_count) =
        (s.total_syscalls_done - s.previous_op_count) + UINT64_SIZE := by
      omega
    rw [h1, Nat.add_mod_right, Nat.mod_eq_of_lt (by omega)]
  simp only [check_shm_sanity, hrun, if_false, hany, Bool.false_eq_true,
    hwrap, hdelta, if_true]
  exact ⟨trivial, trivial, trivial⟩

/-- C7.  For every lock in state `LOCKED` whose owner's liveness probe
reports "no such process", `check_lock` forces the lock to `FREE`
(`UNLOCKED`) and sends no signal, for every value of the contention
counter. -/
theorem check_lock_dead_owner_frees (env : Env) (l : lock_t)
    (hlock : l.lock = LockState.LOCKED)
    (hprobe : env.probe l.owner = Probe.esrch) :
    (check_lock env l).1.lock = LockState.UNLOCKED ∧
    (check_lock env l).2 = [] := by
  simp [check_lock, hlock, hprobe, unlock]

/-- C7, witness: a locked lock with dead owner and arbitrary contention
(here 3) is freed. -/
theorem check_lock_dead_owner_frees_witness :
    (check_lock ⟨fun _ => .esrch, fun _ => true, 0⟩
      ⟨LockState.LOCKED, 9, 3⟩).1.lock = LockState.UNLOCKED ∧
    (check_lock ⟨fun _ => .esrch, fun _ => true, 0⟩
      ⟨LockState.LOCKED, 9, 3⟩).2 = [] :=
  check_lock_dead_owner_frees ⟨fun _ => .esrch, fun _ => true, 0⟩
    ⟨LockState.LOCKED, 9, 3⟩ rfl rfl

/-- C9.  For every lock in state `LOCKED` whose owner's liveness probe
fails with an error other than "no such process", `check_lock` returns the
lock entirely unchanged (state, owner and contention) and sends no signal,
even when contention exceeds the steal threshold (the statement quantifies
over all contention values). -/
theorem check_lock_indeterminate_probe_noop (env : Env) (l : lock_t)
    (hlock : l.lock = LockState.LOCKED)
    (hprobe : env.probe l.owner = Probe.err) :
    check_lock env l = (l, []) := by
  simp [check_lock, hlock, hprobe]

/-- C9, witness: contention 100001 exceeds the threshold, yet an
indeterminate probe leaves the lock untouched and kills nobody. -/
theorem check_lock_indeterminate_probe_noop_witness :
    check_lock ⟨fun _ => .err, fun _ => true, 0⟩
      ⟨LockState.LOCKED, 9, 100001⟩ =
      (⟨LockState.LOCKED, 9, 100001⟩, []) :=
  check_lock_indeterminate_probe_noop ⟨fun _ => .err, fun _ => true, 0⟩
    ⟨LockState.LOCKED, 9, 100001⟩ rfl rfl

/-- Helper for C2: in the waiting loop of `check_main_alive`, with an exit
reason latched, a non-zero `mainpid` and a dead main process, every
iteration leaves the state unchanged (`__check_main` returns `FALSE`
before clearing `mainpid`), so the loop never exits, whatever the fuel. -/
theorem cma_loop_stuck (kakFuel : Nat) :
    ∀ fuel, cma_loop envAllDead kakFuel fuel shmC2 = none := by
  intro fuel
  induction fuel with
  | zero => rfl
  | succ n ih =>
    have hstep : cma_loop envAllDead kakFuel (n + 1) shmC2 =
        cma_loop envAllDead kakFuel n shmC2 := rfl
    rw [hstep, ih]

/-- C2.  With a terminal exit reason latched (`EXIT_REACHED_COUNT`),
`mainpid = 42` non-zero, and the main process dead (probe `ESRCH`),
`check_main_alive` never terminates, whatever fuel its waiting loop and
the inner shutdown coordinator are given: `__check_main` returns `FALSE`
without clearing `mainpid` (the already-exiting check precedes the
`ESRCH` handling), so `while (shm->mainpid != 0)` spins forever — and,
since the sleep is only on the `TRUE` branch, it spins without sleeping.
The claim says it terminates and returns false. -/
theorem check_main_alive_latched_dead_main_spins (kakFuel fuel : Nat) :
    shmC2.exit_reason ≠ ExitReason.STILL_RUNNING ∧
    shmC2.mainpid ≠ 0 ∧
    envAllDead.probe shmC2.mainpid = Probe.esrch ∧
    check_main_alive envAllDead kakFuel fuel shmC2 = none := by
  refine ⟨by decide, by decide, rfl, ?_⟩
  have h : check_main_alive envAllDead kakFuel fuel shmC2 =
      cma_loop envAllDead kakFuel fuel shmC2 := rfl
  rw [h]
  exact cma_loop_stuck kakFuel fuel

/-- C3.  A latched exit reason is not write-once: starting from a state
with `EXIT_REACHED_COUNT` latched and one running child whose pid the
range check rejects, `kill_all_kids`'s re-run of the sanity check
overwrites the latched reason with `EXIT_PID_OUT_OF_RANGE` (the FIXME at
watchdog.c:140 documents this as over-writing the real exit reason). -/
theorem kill_all_kids_overwrites_latched_reason :
    shmC3.exit_reason = ExitReason.EXIT_REACHED_COUNT ∧
    (kill_all_kids envAllInvalid 1 shmC3).map (fun r => r.2.exit_reason) =
      some ExitReason.EXIT_PID_OUT_OF_RANGE := by
  constructor
  · decide
  · decide

/-- Helper for C4: whenever the drain loop of `kill_all_kids` exits
normally (tag `drained`, i.e. the `while (running_childs > 0)` condition
failed), the state it returns has every pid slot defensively cleared. -/
theorem kak_loop_drained_clears (env : Env) :
    ∀ (fuel : Nat) (s s' : Shm),
      kak_loop env fuel s = some (KakExit.drained, s') →
      ∀ i, s'.pids i = EMPTY_PIDSLOT := by
  intro fuel
  induction fuel with
  | zero =>
    intro s s' h i
    exact absurd h (by simp [kak_loop])
  | succ n ih =>
    intro s s' h i
    simp only [kak_loop] at h
    split at h
    · split at h
      · simp at h
      · split at h
        · simp at h
        · exact ih _ _ h i
    · simp only [Option.some.injEq, Prod.mk.injEq] at h
      obtain ⟨-, h2⟩ := h
      subst h2
      rfl

/-- C4, amended.  When `kill_all_kids` returns through the normal exit of
its drain loop (`running_childs` observed 0), every pid slot equals the
`EMPTY` sentinel: the defensive clear runs on that path. -/
theorem kill_all_kids_drained_clears (env : Env) (fuel : Nat) (s s' : Shm)
    (h : kill_all_kids env fuel s = some (KakExit.drained, s')) :
    ∀ i, s'.pids i = EMPTY_PIDSLOT := by
  exact kak_loop_drained_clears env fuel _ s' h

/-- C4 amended, witness: from a state with no running children the drain
loop exits at once and slot 0 (indeed every slot) is cleared. -/
theorem kill_all_kids_drained_clears_witness :
    shmDoneCleared.pids 0 = EMPTY_PIDSLOT :=
  kill_all_kids_drained_clears envAllValid 1 shmDone shmDoneCleared rfl 0

/-- C4, counterexample.  Two occupied slots, pid 7 definitively dead,
pid 8's probe indeterminate (so no occupied slot probes alive — no live
worker remains).  `reap_dead_kids` reaps slot 0, counts nobody alive, and
`kill_all_kids` returns through its early `return` (tag `reapedEmpty`)
with slot 1 still holding pid 8: the defensive clear is skipped on this
path, refuting "every pid slot equals the EMPTY sentinel ... on every
path". -/
theorem kill_all_kids_reaped_empty_skips_clear :
    (kill_all_kids envC4 1 shmC4).map (fun r => r.1) =
      some KakExit.reapedEmpty ∧
    (kill_all_kids envC4 1 shmC4).map (fun r => r.2.pids 1) =
      some (8 : Pid) ∧
    (8 : Pid) ≠ EMPTY_PIDSLOT ∧
    shmC4.pids 0 ≠ EMPTY_PIDSLOT ∧
    shmC4.pids 1 ≠ EMPTY_PIDSLOT ∧
    envC4.probe (shmC4.pids 0) ≠ Probe.alive ∧
    envC4.probe (shmC4.pids 1) ≠ Probe.alive := by
  refine ⟨by decide, by decide, by decide, by decide, by decide,
    by decide, by decide⟩

/-- One progress-monitor iteration never changes the pid table. -/
theorem child_tick_pids (env : Env) (s : Shm) (i : Nat) :
    (child_tick env s i).1.pids = s.pids := by
  unfold child_tick
  split_ifs <;> rfl

/-- One progress-monitor iteration on slot `j` leaves slot `i`'s
`kill_count` alone when `i ≠ j`. -/
theorem child_tick_kc_frame (env : Env) (s : Shm) (j i : Nat) (h : i ≠ j) :
    (child_tick env s j).1.kill_count i = s.kill_count i := by
  unfold child_tick
  split_ifs <;> simp [upd_ne _ _ _ _ h]

/-- One progress-monitor iteration on slot `j` leaves slot `i`'s
timestamp alone when `i ≠ j`. -/
theorem child_tick_tv_frame (env : Env) (s : Shm) (j i : Nat) (h : i ≠ j) :
    (child_tick env s j).1.tv i = s.tv i := by
  unfold child_tick
  split_ifs <;> simp [upd_ne _ _ _ _ h]

/-- Every pid signalled by the iteration on slot `j` is slot `j`'s own
pid. -/
theorem child_tick_kills (env : Env) (s : Shm) (j : Nat) :
    ∀ q ∈ (child_tick env s j).2, q = s.pids j := by
  unfold child_tick
  split_ifs <;> intro q hq <;> simp_all

/-- The iteration on slot `i` depends only on slot `i`'s own fields: two
states agreeing on `pids i`, `tv i` and `kill_count i` produce the same
slot-`i` results and the same signals. -/
theorem child_tick_congr (env : Env) (s s' : Shm) (i : Nat)
    (hp : s'.pids i = s.pids i) (ht : s'.tv i = s.tv i)
    (hk : s'.kill_count i = s.kill_count i) :
    (child_tick env s' i).1.kill_count i =
      (child_tick env s i).1.kill_count i ∧
    (child_tick env s' i).1.tv i = (child_tick env s i).1.tv i ∧
    (child_tick env s' i).2 = (child_tick env s i).2 := by
  unfold child_tick
  simp only [hp, ht, hk]
  split_ifs <;> simp [hp, ht, hk]

/-- The progress-monitor loop never changes the pid table. -/
theorem cc_loop_pids (env : Env) :
    ∀ (L : List Nat) (s : Shm), (cc_loop env L s).1.pids = s.pids := by
  intro L
  induction L with
  | nil => intro s; rfl
  | cons a rest ih =>
    intro s
    show (cc_loop env rest (child_tick env s a).1).1.pids = s.pids
    rw [ih, child_tick_pids]

/-- The progress-monitor loop leaves slot `i`'s `kill_count` alone when
`i` is not among the processed indices. -/
theorem cc_loop_kc_frame (env : Env) (i : Nat) :
    ∀ (L : List Nat) (s : Shm), i ∉ L →
      (cc_loop env L s).1.kill_count i = s.kill_count i := by
  intro L
  induction L with
  | nil => intro s _; rfl
  | cons a rest ih =>
    intro s hmem
    have hia : i ≠ a := fun h => hmem (h ▸ List.mem_cons_self a rest)
    have hir : i ∉ rest := fun h => hmem (List.mem_cons_of_mem a h)
    show (cc_loop env rest (child_tick env s a).1).1.kill_count i =
      s.kill_count i
    rw [ih _ hir, child_tick_kc_frame env s a i hia]

/-- The progress-monitor loop leaves slot `i`'s timestamp alone when `i`
is not among the processed indices. -/
theorem cc_loop_tv_frame (env : Env) (i : Nat) :
    ∀ (L : List Nat) (s : Shm), i ∉ L →
      (cc_loop env L s).1.tv i = s.tv i := by
  intro L
  induction L with
  | nil => intro s _; rfl
  | cons a rest ih =>
    intro s hmem
    have hia : i ≠ a := fun h => hmem (h ▸ List.mem_cons_self a rest)
    have hir : i ∉ rest := fun h => hmem (List.mem_cons_of_mem a h)
    show (cc_loop env rest (child_tick env s a).1).1.tv i = s.tv i
    rw [ih _ hir, child_tick_tv_frame env s a i hia]

/-- Every pid the progress-monitor loop signals belongs to one of the
processed slots (pids read in the initial state, which the loop never
changes). -/
theorem cc_loop_kills (env : Env) :
    ∀ (L : List Nat) (s : Shm) (q : Pid), q ∈ (cc_loop env L s).2 →
      ∃ j ∈ L, q = s.pids j := by
  intro L
  induction L with
  | nil => intro s q hq; cases hq
  | cons a rest ih =>
    intro s q hq
    have hq' : q ∈ (child_tick env s a).2 ++
        (cc_loop env rest (child_tick env s a).1).2 := hq
    rcases List.mem_append.mp hq' with h | h
    · exact ⟨a, List.mem_cons_self a rest, child_tick_kills env s a q h⟩
    · obtain ⟨j, hj, hqe⟩ := ih _ q h
      refine ⟨j, List.mem_cons_of_mem a hj, ?_⟩
      rw [hqe, child_tick_pids]

/-- Slot-locality of the progress monitor: when the processed indices are
distinct, contain `i`, and no other processed slot aliases slot `i`'s
pid, the loop's effect on slot `i`'s `kill_count` and timestamp, and the
number of signals it sends to slot `i`'s pid, are exactly those of the
single iteration on slot `i` in the initial state. -/
theorem cc_loop_slot (env : Env) (i : Nat) :
    ∀ (L : List Nat) (s : Shm), L.Nodup → i ∈ L →
      (∀ j ∈ L, j ≠ i → s.pids j ≠ s.pids i) →
      (cc_loop env L s).1.kill_count i =
        (child_tick env s i).1.kill_count i ∧
      (cc_loop env L s).1.tv i = (child_tick env s i).1.tv i ∧
      (cc_loop env L s).2.count (s.pids i) =
        (child_tick env s i).2.count (s.pids i) := by
  intro L
  induction L with
  | nil => intro s _ h; cases h
  | cons a rest ih =>
    intro s hnd hmem halias
    have hndr : rest.Nodup := (List.nodup_cons.mp hnd).2
    by_cases hai : a = i
    · rw [hai] at hnd halias ⊢
      have hni : i ∉ rest := (List.nodup_cons.mp hnd).1
      have hrest0 : ((cc_loop env rest (child_tick env s i).1).2).count
          (s.pids i) = 0 := by
        rw [List.count_eq_zero]
        intro hmem2
        obtain ⟨j, hj, hje⟩ := cc_loop_kills env rest _ _ hmem2
        rw [child_tick_pids] at hje
        have hji : j ≠ i := fun h => hni (h ▸ hj)
        exact halias j (List.mem_cons_of_mem i hj) hji hje.symm
      refine ⟨?_, ?_, ?_⟩
      · show (cc_loop env rest (child_tick env s i).1).1.kill_count i = _
        rw [cc_loop_kc_frame env i rest _ hni]
      · show (cc_loop env rest (child_tick env s i).1).1.tv i = _
        rw [cc_loop_tv_frame env i rest _ hni]
      · show ((child_tick env s i).2 ++
            (cc_loop env rest (child_tick env s i).1).2).count (s.pids i) = _
        rw [List.count_append, hrest0, Nat.add_zero]
    · have hmem' : i ∈ rest := by
        rcases List.mem_cons.mp hmem with h | h
        · exact absurd h.symm hai
        · exact h
      have hamem : a ∈ a :: rest := List.mem_cons_self a rest
      have haalias : s.pids a ≠ s.pids i :=
        halias a hamem (fun h => hai h)
      have hhead0 : ((child_tick env s a).2).count (s.pids i) = 0 := by
        rw [List.count_eq_zero]
        intro hmem2
        exact haalias (child_tick_kills env s a _ hmem2).symm
      have hp : (child_tick env s a).1.pids i = s.pids i := by
        rw [child_tick_pids]
      have ht : (child_tick env s a).1.tv i = s.tv i :=
        child_tick_tv_frame env s a i (fun h => hai h.symm)
      have hk : (child_tick env s a).1.kill_count i = s.kill_count i :=
        child_tick_kc_frame env s a i (fun h => hai h.symm)
      have halias' : ∀ j ∈ rest, j ≠ i →
          (child_tick env s a).1.pids j ≠ (child_tick env s a).1.pids i := by
        intro j hj hji
        rw [child_tick_pids]
        exact halias j (List.mem_cons_of_mem a hj) hji
      obtain ⟨ih1, ih2, ih3⟩ := ih (child_tick env s a).1 hndr hmem' halias'
      obtain ⟨hc1, hc2, hc3⟩ := child_tick_congr env s
        (child_tick env s a).1 i hp ht hk
      refine ⟨?_, ?_, ?_⟩
      · show (cc_loop env rest (child_tick env s a).1).1.kill_count i = _
        rw [ih1, hc1]
      · show (cc_loop env rest (child_tick env s a).1).1.tv i = _
        rw [ih2, hc2]
      · show ((child_tick env s a).2 ++
            (cc_loop env rest (child_tick env s a).1).2).count (s.pids i) = _
        rw [List.count_append, hhead0, Nat.zero_add]
        rw [hp] at ih3
        rw [ih3, hc3]

/-- Behaviour of one progress-monitor iteration on an occupied slot with
recorded timestamp whose staleness is exactly 30 seconds: one SIGKILL to
the slot's pid, `kill_count` bumped once (mod `2^32`), timestamp
untouched. -/
theorem child_tick_at_30 (env : Env) (s : Shm) (i : Nat)
    (hocc : s.pids i ≠ EMPTY_PIDSLOT) (htv : s.tv i ≠ 0)
    (hd : env.now - s.tv i = 30) :
    (child_tick env s i).1.kill_count i = (s.kill_count i + 1) % UINT_SIZE ∧
    (child_tick env s i).1.tv i = s.tv i ∧
    (child_tick env s i).2 = [s.pids i] := by
  have h3 : ¬ s.tv i > env.now + 3 := by omega
  have h1000 : ¬ env.now - s.tv i > 1000 := by omega
  have h40 : ¬ env.now - s.tv i ≥ 40 := by omega
  unfold child_tick
  rw [if_neg hocc, if_neg htv, if_neg h3, if_neg h1000]
  simp only [hd]
  norm_num

/-- Behaviour of one progress-monitor iteration on an occupied slot with
recorded timestamp when none of the four conditions fires (no wrap, not
garbage, staleness neither exactly 30 nor at least 40): no signal, state
untouched. -/
theorem child_tick_quiet (env : Env) (s : Shm) (i : Nat)
    (hocc : s.pids i ≠ EMPTY_PIDSLOT) (htv : s.tv i ≠ 0)
    (h3 : ¬ s.tv i > env.now + 3) (h1000 : ¬ env.now - s.tv i > 1000)
    (hne30 : ¬ env.now - s.tv i = 30) (hlt40 : ¬ env.now - s.tv i ≥ 40) :
    child_tick env s i = (s, []) := by
  unfold child_tick
  rw [if_neg hocc, if_neg htv, if_neg h3, if_neg h1000]
  simp only [if_neg hne30, if_neg hlt40]

/-- Behaviour of one progress-monitor iteration on an occupied slot with
recorded timestamp whose staleness is at least 40 and at most 1000
seconds: one SIGKILL to the slot's pid, `kill_count` bumped once (mod
`2^32`), timestamp untouched. -/
theorem child_tick_at_40 (env : Env) (s : Shm) (i : Nat)
    (hocc : s.pids i ≠ EMPTY_PIDSLOT) (htv : s.tv i ≠ 0)
    (hge : 40 ≤ env.now - s.tv i) (hle : env.now - s.tv i ≤ 1000) :
    (child_tick env s i).1.kill_count i = (s.kill_count i + 1) % UINT_SIZE ∧
    (child_tick env s i).1.tv i = s.tv i ∧
    (child_tick env s i).2 = [s.pids i] := by
  have h3 : ¬ s.tv i > env.now + 3 := by omega
  have h1000 : ¬ env.now - s.tv i > 1000 := by omega
  have hne30 : ¬ env.now - s.tv i = 30 := by omega
  have h40 : env.now - s.tv i ≥ 40 := hge
  unfold child_tick
  rw [if_neg hocc, if_neg htv, if_neg h3, if_neg h1000]
  simp only [if_neg hne30, if_pos h40]
  norm_num

/-- C5.  For every shared state and every occupied slot `i` with a
non-zero timestamp whose pid no other slot below the iteration bound
aliases, and whose `kill_count` is not about to wrap: if the progress
delta is exactly 30 seconds, one `check_children` tick sends exactly one
SIGKILL to that worker and increments its `kill_count` by exactly 1; if
the delta is 29 seconds, it sends none and leaves `kill_count`
unchanged. -/
theorem check_children_kill_at_exactly_30 (env : Env) (s : Shm) (i : Nat)
    (hi : i < s.num_children)
    (hocc : s.pids i ≠ EMPTY_PIDSLOT)
    (htv : s.tv i ≠ 0)
    (halias : ∀ j, j < s.num_children → j ≠ i → s.pids j ≠ s.pids i)
    (hkc : s.kill_count i + 1 < UINT_SIZE) :
    (env.now - s.tv i = 30 →
      (check_children env s).2.count (s.pids i) = 1 ∧
      (check_children env s).1.kill_count i = s.kill_count i + 1) ∧
    (env.now - s.tv i = 29 →
      (check_children env s).2.count (s.pids i) = 0 ∧
      (check_children env s).1.kill_count i = s.kill_count i) := by
  have hmem : i ∈ List.range s.num_children := List.mem_range.mpr hi
  have hnd := List.nodup_range s.num_children
  have halias' : ∀ j ∈ List.range s.num_children, j ≠ i →
      s.pids j ≠ s.pids i := by
    intro j hj hji
    exact halias j (List.mem_range.mp hj) hji
  obtain ⟨h1, h2, h3⟩ :=
    cc_loop_slot env i (List.range s.num_children) s hnd hmem halias'
  constructor
  · intro hd
    obtain ⟨hk, htv', hks⟩ := child_tick_at_30 env s i hocc htv hd
    constructor
    · show (cc_loop env (List.range s.num_children) s).2.count (s.pids i) = 1
      rw [h3, hks]
      simp
    · show (cc_loop env (List.range s.num_children) s).1.kill_count i = _
      rw [h1, hk, Nat.mod_eq_of_lt hkc]
  · intro hd
    have hq := child_tick_quiet env s i hocc htv
      (by omega) (by omega) (by omega) (by omega)
    constructor
    · show (cc_loop env (List.range s.num_children) s).2.count (s.pids i) = 0
      rw [h3, hq]
      simp
    · show (cc_loop env (List.range s.num_children) s).1.kill_count i = _
      rw [h1, hq]

/-- C5, witness: slot 0 (pid 5) at staleness 30 (timestamp 70, clock 100)
gets exactly one SIGKILL and `kill_count` goes from 0 to 1; at staleness
29 (timestamp 71), nothing. -/
theorem check_children_kill_at_exactly_30_witness :
    ((check_children envAllValid (shmTv 70)).2.count ((shmTv 70).pids 0) = 1 ∧
      (check_children envAllValid (shmTv 70)).1.kill_count 0 =
        (shmTv 70).kill_count 0 + 1) ∧
    ((check_children envAllValid (shmTv 71)).2.count ((shmTv 71).pids 0) = 0 ∧
      (check_children envAllValid (shmTv 71)).1.kill_count 0 =
        (shmTv 71).kill_count 0) :=
  ⟨(check_children_kill_at_exactly_30 envAllValid (shmTv 70) 0 (by decide)
      (by decide) (by decide) (fun j hj hji => absurd (Nat.lt_one_iff.mp (show j < 1 from hj)) hji)
      (by decide)).1 (by decide),
    (check_children_kill_at_exactly_30 envAllValid (shmTv 71) 0 (by decide)
      (by decide) (by decide) (fun j hj hji => absurd (Nat.lt_one_iff.mp (show j < 1 from hj)) hji)
      (by decide)).2 (by decide)⟩

/-- C6.  For every shared state and every occupied slot `i` with a
non-zero timestamp, un-aliased pid and non-wrapping `kill_count`, whose
progress delta is at least 40 and at most 1000 seconds, one
`check_children` tick sends exactly one SIGKILL to that worker and
increments its `kill_count` by exactly 1, and it changes neither the
slot's timestamp nor any pid slot — so the same holds on every subsequent
tick for as long as the slot stays occupied and the delta stays at most
1000. -/
theorem check_children_repeat_kill_at_40 (env : Env) (s : Shm) (i : Nat)
    (hi : i < s.num_children)
    (hocc : s.pids i ≠ EMPTY_PIDSLOT)
    (htv : s.tv i ≠ 0)
    (halias : ∀ j, j < s.num_children → j ≠ i → s.pids j ≠ s.pids i)
    (hkc : s.kill_count i + 1 < UINT_SIZE)
    (hge : 40 ≤ env.now - s.tv i) (hle : env.now - s.tv i ≤ 1000) :
    (check_children env s).2.count (s.pids i) = 1 ∧
    (check_children env s).1.kill_count i = s.kill_count i + 1 ∧
    (check_children env s).1.tv i = s.tv i ∧
    (check_children env s).1.pids = s.pids := by
  have hmem : i ∈ List.range s.num_children := List.mem_range.mpr hi
  have hnd := List.nodup_range s.num_children
  have halias' : ∀ j ∈ List.range s.num_children, j ≠ i →
      s.pids j ≠ s.pids i := by
    intro j hj hji
    exact halias j (List.mem_range.mp hj) hji
  obtain ⟨h1, h2, h3⟩ :=
    cc_loop_slot env i (List.range s.num_children) s hnd hmem halias'
  obtain ⟨hk, htv', hks⟩ := child_tick_at_40 env s i hocc htv hge hle
  refine ⟨?_, ?_, ?_, ?_⟩
  · show (cc_loop env (List.range s.num_children) s).2.count (s.pids i) = 1
    rw [h3, hks]
    simp
  · show (cc_loop env (List.range s.num_children) s).1.kill_count i = _
    rw [h1, hk, Nat.mod_eq_of_lt hkc]
  · show (cc_loop env (List.range s.num_children) s).1.tv i = _
    rw [h2, htv']
  · exact cc_loop_pids env (List.range s.num_children) s

/-- C6, witness: slot 0 (pid 5) at staleness 60 (timestamp 40, clock
100) gets one SIGKILL, `kill_count` 0 becomes 1, timestamp and pid table
untouched. -/
theorem check_children_repeat_kill_at_40_witness :
    (check_children envAllValid (shmTv 40)).2.count ((shmTv 40).pids 0) = 1 ∧
    (check_children envAllValid (shmTv 40)).1.kill_count 0 =
      (shmTv 40).kill_count 0 + 1 ∧
    (check_children envAllValid (shmTv 40)).1.tv 0 = (shmTv 40).tv 0 ∧
    (check_children envAllValid (shmTv 40)).1.pids = (shmTv 40).pids :=
  check_children_repeat_kill_at_40 envAllValid (shmTv 40) 0 (by decide)
    (by decide) (by decide) (fun j hj hji => absurd (Nat.lt_one_iff.mp (show j < 1 from hj)) hji)
    (by decide) (by decide) (by decide)

/-- C10.  For every shared state and every occupied slot `i` with a
non-zero timestamp and un-aliased pid whose progress delta is strictly
between 30 and 40 seconds (31 to 39), one `check_children` tick sends no
signal to that worker and leaves its `kill_count` and timestamp
unchanged. -/
theorem check_children_gap_31_39 (env : Env) (s : Shm) (i : Nat)
    (hi : i < s.num_children)
    (hocc : s.pids i ≠ EMPTY_PIDSLOT)
    (htv : s.tv i ≠ 0)
    (halias : ∀ j, j < s.num_children → j ≠ i → s.pids j ≠ s.pids i)
    (hlo : 31 ≤ env.now - s.tv i) (hhi : env.now - s.tv i ≤ 39) :
    (check_children env s).2.count (s.pids i) = 0 ∧
    (check_children env s).1.kill_count i = s.kill_count i ∧
    (check_children env s).1.tv i = s.tv i := by
  have hmem : i ∈ List.range s.num_children := List.mem_range.mpr hi
  have hnd := List.nodup_range s.num_children
  have halias' : ∀ j ∈ List.range s.num_children, j ≠ i →
      s.pids j ≠ s.pids i := by
    intro j hj hji
    exact halias j (List.mem_range.mp hj) hji
  obtain ⟨h1, h2, h3⟩ :=
    cc_loop_slot env i (List.range s.num_children) s hnd hmem halias'
  have hq := child_tick_quiet env s i hocc htv
    (by omega) (by omega) (by omega) (by omega)
  refine ⟨?_, ?_, ?_⟩
  · show (cc_loop env (List.range s.num_children) s).2.count (s.pids i) = 0
    rw [h3, hq]
    simp
  · show (cc_loop env (List.range s.num_children) s).1.kill_count i = _
    rw [h1, hq]
  · show (cc_loop env (List.range s.num_children) s).1.tv i = _
    rw [h2, hq]

/-- C10, witness: slot 0 (pid 5) at staleness 35 (timestamp 65, clock
100): no signal, `kill_count` and timestamp unchanged. -/
theorem check_children_gap_31_39_witness :
    (check_children envAllValid (shmTv 65)).2.count ((shmTv 65).pids 0) = 0 ∧
    (check_children envAllValid (shmTv 65)).1.kill_count 0 =
      (shmTv 65).kill_count 0 ∧
    (check_children envAllValid (shmTv 65)).1.tv 0 = (shmTv 65).tv 0 :=
  check_children_gap_31_39 envAllValid (shmTv 65) 0 (by decide) (by decide)
    (by decide) (fun j hj hji => absurd (Nat.lt_one_iff.mp (show j < 1 from hj)) hji) (by decide) (by decide)

/-- Helper: `reap_child` on the pid of an occupied slot `i` that no
earlier slot holds clears exactly slot `i` and decrements
`running_childs`. -/
theorem reap_child_at (s : Shm) (i : Nat) (hi : i < s.num_children)
    (hfirst : ∀ k, k < i → s.pids k ≠ s.pids i) :
    reap_child (s.pids i) s =
      { s with pids := upd s.pids i EMPTY_PIDSLOT,
               running_childs := s.running_childs - 1 } := by
  have hfind : (List.range s.num_children).find?
      (fun k => s.pids k == s.pids i) = some i := by
    have hsplit : s.num_children = i + (s.num_children - i) := by omega
    rw [hsplit, List.range_add, List.find?_append]
    have h1 : (List.range i).find? (fun k => s.pids k == s.pids i) = none := by
      rw [List.find?_eq_none]
      intro x hx
      simp only [beq_iff_eq]
      exact hfirst x (List.mem_range.mp hx)
    rw [h1, Option.none_or]
    have hsub : s.num_children - i = (s.num_children - i - 1) + 1 := by omega
    rw [hsub, List.range_succ_eq_map, List.map_cons]
    rw [List.find?_cons_of_pos _ (by simp)]
    simp
  unfold reap_child
  rw [hfind]

/-- Helper: if `p` holds at `i ∈ L`, `q` fails at `i`, and the two agree
on the rest of the duplicate-free `L`, the `q`-count over `L` is one less
than the `p`-count. -/
theorem countP_update_drop (p q : Nat → Bool) :
    ∀ (L : List Nat) (i : Nat), L.Nodup → i ∈ L → p i = true → q i = false →
      (∀ j ∈ L, j ≠ i → p j = q j) →
      L.countP q + 1 = L.countP p := by
  intro L
  induction L with
  | nil => intro i _ h; cases h
  | cons a rest ih =>
    intro i hnd hmem hp hq hagree
    have hndr : rest.Nodup := (List.nodup_cons.mp hnd).2
    by_cases hai : a = i
    · rw [hai] at hnd ⊢
      have hni : i ∉ rest := (List.nodup_cons.mp hnd).1
      have hrest : rest.countP q = rest.countP p := by
        refine (List.countP_congr ?_).symm
        intro j hj
        have hji : j ≠ i := fun h => hni (h ▸ hj)
        rw [hagree j (List.mem_cons_of_mem a hj) hji]
      rw [List.countP_cons, List.countP_cons, hp, hq, hrest]
      simp
    · have hmem' : i ∈ rest := by
        rcases List.mem_cons.mp hmem with h | h
        · exact absurd h.symm hai
        · exact h
      have hpa : p a = q a :=
        hagree a (List.mem_cons_self a rest) hai
      have hrec := ih i hndr hmem' hp hq
        (fun j hj => hagree j (List.mem_cons_of_mem a hj))
      rw [List.countP_cons, List.countP_cons, hpa]
      omega

/-- Helper: the one-step unfolding of the reaper loop on a non-empty
index list. -/
theorem reap_loop_cons (env : Env) (i : Nat) (rest : List Nat) (s : Shm)
    (alive : Nat) :
    reap_loop env (i :: rest) s alive =
      (if s.pids i = EMPTY_PIDSLOT then reap_loop env rest s alive
       else
         match env.probe (s.pids i) with
         | .esrch =>
           if (reap_child (s.pids i) s).running_childs = 0 then
             ((0 : Nat), reap_child (s.pids i) s)
           else reap_loop env rest (reap_child (s.pids i) s) alive
         | .err =>
           if s.running_childs = 0 then ((0 : Nat), s)
           else reap_loop env rest s alive
         | .alive =>
           if s.running_childs = 0 then ((0 : Nat), s)
           else reap_loop env rest s (alive + 1)) := rfl

/-- Helper for C8: full characterisation of the reaper's
`for_each_child` loop.  When the processed indices are duplicate-free and
in range, `running_childs` counts the occupied slots, and occupied slots
hold pairwise distinct pids, the loop returns the incoming `alive` count
plus the number of processed occupied slots probing alive, and the final
table clears exactly the processed occupied slots probing `ESRCH`. -/
theorem reap_loop_spec (env : Env) :
    ∀ (L : List Nat) (s : Shm) (alive : Nat),
      L.Nodup →
      (∀ i ∈ L, i < s.num_children) →
      s.running_childs = occupiedCount s →
      (∀ j, j < s.num_children → ∀ k, k < s.num_children → j ≠ k →
        s.pids j ≠ EMPTY_PIDSLOT → s.pids j ≠ s.pids k) →
      alive + occupiedIn s L ≤ occupiedCount s →
      (reap_loop env L s alive).1 = alive + aliveIn env s L ∧
      (∀ j : Nat, (reap_loop env L s alive).2.pids j =
        if j ∈ L ∧ s.pids j ≠ EMPTY_PIDSLOT ∧
            env.probe (s.pids j) = Probe.esrch
        then EMPTY_PIDSLOT else s.pids j) := by
  intro L
  induction L with
  | nil =>
    intro s alive _ _ _ _ _
    constructor
    · simp [reap_loop, aliveIn]
    · intro j
      simp [reap_loop]
  | cons i rest ih =>
    intro s alive hnd hsub hinv hinj hA
    have hndr : rest.Nodup := (List.nodup_cons.mp hnd).2
    have hni : i ∉ rest := (List.nodup_cons.mp hnd).1
    have hin : i < s.num_children := hsub i (List.mem_cons_self i rest)
    have hsubr : ∀ k ∈ rest, k < s.num_children :=
      fun k hk => hsub k (List.mem_cons_of_mem i hk)
    by_cases hocc : s.pids i = EMPTY_PIDSLOT
    · have hstep : reap_loop env (i :: rest) s alive =
          reap_loop env rest s alive := by
        rw [reap_loop_cons, if_pos hocc]
      have hoccIn : occupiedIn s (i :: rest) = occupiedIn s rest := by
        unfold occupiedIn
        rw [List.countP_cons]
        simp [hocc]
      rw [hoccIn] at hA
      obtain ⟨ih1, ih2⟩ := ih s alive hndr hsubr hinv hinj hA
      constructor
      · rw [hstep, ih1]
        have hcnt : aliveIn env s (i :: rest) = aliveIn env s rest := by
          unfold aliveIn
          rw [List.countP_cons]
          simp [hocc]
        rw [hcnt]
      · intro j
        rw [hstep, ih2 j]
        by_cases hj : j = i
        · rw [hj]
          simp [hocc]
        · simp [List.mem_cons, hj]
    · have hoccIn : occupiedIn s (i :: rest) = occupiedIn s rest + 1 := by
        unfold occupiedIn
        rw [List.countP_cons]
        simp [hocc]
      rw [hoccIn] at hA
      have hoccpos : 1 ≤ occupiedCount s := by omega
      cases hpr : env.probe (s.pids i) with
      | alive =>
        have hrc : ¬ s.running_childs = 0 := by
          rw [hinv]; omega
        have hstep : reap_loop env (i :: rest) s alive =
            reap_loop env rest s (alive + 1) := by
          rw [reap_loop_cons, if_neg hocc, hpr]
          exact if_neg hrc
        obtain ⟨ih1, ih2⟩ := ih s (alive + 1) hndr hsubr hinv hinj (by omega)
        constructor
        · rw [hstep, ih1]
          have hcnt : aliveIn env s (i :: rest) = aliveIn env s rest + 1 := by
            unfold aliveIn
            rw [List.countP_cons]
            simp [hocc, hpr]
          rw [hcnt]
          omega
        · intro j
          rw [hstep, ih2 j]
          by_cases hj : j = i
          · rw [hj]
            simp [hpr, hni]
          · simp [List.mem_cons, hj]
      | err =>
        have hrc : ¬ s.running_childs = 0 := by
          rw [hinv]; omega
        have hstep : reap_loop env (i :: rest) s alive =
            reap_loop env rest s alive := by
          rw [reap_loop_cons, if_neg hocc, hpr]
          exact if_neg hrc
        obtain ⟨ih1, ih2⟩ := ih s alive hndr hsubr hinv hinj (by omega)
        constructor
        · rw [hstep, ih1]
          have hcnt : aliveIn env s (i :: rest) = aliveIn env s rest := by
            unfold aliveIn
            rw [List.countP_cons]
            simp [hpr]
          rw [hcnt]
        · intro j
          rw [hstep, ih2 j]
          by_cases hj : j = i
          · rw [hj]
            simp [hpr, hni]
          · simp [List.mem_cons, hj]
      | esrch =>
        have hfirst : ∀ k, k < i → s.pids k ≠ s.pids i := by
          intro k hk
          by_cases hke : s.pids k = EMPTY_PIDSLOT
          · intro hcontra
            exact hocc (hcontra.symm.trans hke)
          · exact hinj k (Nat.lt_trans hk hin) i hin (Nat.ne_of_lt hk) hke
        have hsx : reap_child (s.pids i) s =
            { s with pids := upd s.pids i EMPTY_PIDSLOT,
                     running_childs := s.running_childs - 1 } :=
          reap_child_at s i hin hfirst
        have hocd : occupiedCount (reap_child (s.pids i) s) + 1 =
            occupiedCount s := by
          rw [hsx]
          exact countP_update_drop (fun k => s.pids k != EMPTY_PIDSLOT)
            (fun k => upd s.pids i EMPTY_PIDSLOT k != EMPTY_PIDSLOT)
            (List.range s.num_children) i (List.nodup_range _)
            (List.mem_range.mpr hin) (by simp [hocc]) (by simp)
            (fun j hj hji => by simp [upd_ne _ _ _ _ hji])
        have hrc1 : (reap_child (s.pids i) s).running_childs =
            s.running_childs - 1 := by
          rw [hsx]
        have hinv' : (reap_child (s.pids i) s).running_childs =
            occupiedCount (reap_child (s.pids i) s) := by
          rw [hrc1, hinv]
          omega
        by_cases h0 : (reap_child (s.pids i) s).running_childs = 0
        · have hstep : reap_loop env (i :: rest) s alive =
              ((0 : Nat), reap_child (s.pids i) s) := by
            rw [reap_loop_cons, if_neg hocc, hpr]
            exact if_pos h0
          have hocc0 : occupiedCount (reap_child (s.pids i) s) = 0 := by
            rw [← hinv']
            exact h0
          have hocc1 : occupiedCount s = 1 := by omega
          have halive : alive = 0 := by omega
          have hrest0 : occupiedIn s rest = 0 := by omega
          have halive0 : aliveIn env s rest = 0 := by
            have hle : aliveIn env s rest ≤ occupiedIn s rest := by
              unfold aliveIn occupiedIn
              refine List.countP_mono_left ?_
              intro x hx h
              simp only [Bool.and_eq_true] at h
              exact h.1
            omega
          constructor
          · rw [hstep]
            have hcnt : aliveIn env s (i :: rest) = aliveIn env s rest := by
              unfold aliveIn
              rw [List.countP_cons]
              simp [hpr]
            show (0 : Nat) = alive + aliveIn env s (i :: rest)
            rw [hcnt]
            omega
          · intro j
            have hL : (((0 : Nat), reap_child (s.pids i) s)).2.pids j =
                upd s.pids i EMPTY_PIDSLOT j := by
              rw [hsx]
            rw [hstep, hL]
            by_cases hj : j = i
            · rw [hj, upd_same]
              exact (if_pos ⟨List.mem_cons_self i rest, hocc, hpr⟩).symm
            · rw [upd_ne _ _ _ _ hj]
              have hrestP : rest.countP
                  (fun k => s.pids k != EMPTY_PIDSLOT) = 0 := hrest0
              have hcond : ¬ (j ∈ i :: rest ∧ s.pids j ≠ EMPTY_PIDSLOT ∧
                  env.probe (s.pids j) = Probe.esrch) := by
                rintro ⟨hjm, hjo, -⟩
                rcases List.mem_cons.mp hjm with h | h
                · exact hj h
                · have hz := List.countP_eq_zero.mp hrestP j h
                  simp [hjo] at hz
              rw [if_neg hcond]
        · have hstep : reap_loop env (i :: rest) s alive =
              reap_loop env rest (reap_child (s.pids i) s) alive := by
            rw [reap_loop_cons, if_neg hocc, hpr]
            exact if_neg h0
          have hagree : ∀ j ∈ rest,
              (reap_child (s.pids i) s).pids j = s.pids j := by
            intro j hj
            rw [hsx]
            exact upd_ne _ _ _ _ (fun h => hni (h ▸ hj))
          have hsubr' : ∀ k ∈ rest,
              k < (reap_child (s.pids i) s).num_children := by
            intro k hk
            rw [hsx]
            exact hsubr k hk
          have hinj' : ∀ j, j < (reap_child (s.pids i) s).num_children →
              ∀ k, k < (reap_child (s.pids i) s).num_children → j ≠ k →
              (reap_child (s.pids i) s).pids j ≠ EMPTY_PIDSLOT →
              (reap_child (s.pids i) s).pids j ≠
                (reap_child (s.pids i) s).pids k := by
            intro j hjn k hkn hjk hjo
            rw [hsx] at hjn hkn hjo ⊢
            have hjn' : j < s.num_children := hjn
            have hkn' : k < s.num_children := hkn
            show upd s.pids i EMPTY_PIDSLOT j ≠ upd s.pids i EMPTY_PIDSLOT k
            have hjo' : upd s.pids i EMPTY_PIDSLOT j ≠ EMPTY_PIDSLOT := hjo
            by_cases hji : j = i
            · rw [hji, upd_same] at hjo'
              exact absurd rfl hjo'
            · rw [upd_ne _ _ _ _ hji] at hjo' ⊢
              by_cases hki : k = i
              · rw [hki, upd_same]
                exact hjo'
              · rw [upd_ne _ _ _ _ hki]
                exact hinj j hjn' k hkn' hjk hjo'
          have hoccIn' : occupiedIn (reap_child (s.pids i) s) rest =
              occupiedIn s rest := by
            unfold occupiedIn
            refine List.countP_congr ?_
            intro x hx
            rw [hagree x hx]
          have hA' : alive + occupiedIn (reap_child (s.pids i) s) rest ≤
              occupiedCount (reap_child (s.pids i) s) := by
            rw [hoccIn']
            omega
          obtain ⟨ih1, ih2⟩ :=
            ih (reap_child (s.pids i) s) alive hndr hsubr' hinv' hinj' hA'
          constructor
          · rw [hstep, ih1]
            have h1 : aliveIn env (reap_child (s.pids i) s) rest =
                aliveIn env s rest := by
              unfold aliveIn
              refine List.countP_congr ?_
              intro x hx
              rw [hagree x hx]
            have h2 : aliveIn env s (i :: rest) = aliveIn env s rest := by
              unfold aliveIn
              rw [List.countP_cons]
              simp [hpr]
            rw [h1, h2]
          · intro j
            rw [hstep, ih2 j]
            by_cases hj : j = i
            · rw [hj]
              rw [if_neg (fun h => hni h.1)]
              have hp0 : (reap_child (s.pids i) s).pids i =
                  EMPTY_PIDSLOT := by
                rw [hsx]
                exact upd_same _ _ _
              rw [hp0]
              exact (if_pos ⟨List.mem_cons_self i rest, hocc, hpr⟩).symm
            · have hpj : (reap_child (s.pids i) s).pids j = s.pids j := by
                rw [hsx]
                exact upd_ne _ _ _ _ hj
              rw [hpj]
              simp [List.mem_cons, hj]

/-- C8, amended.  `reap_dead_kids` clears exactly the occupied slots whose
liveness probe reports "no such process" (any other probe failure leaves
the slot occupied), and — when `running_childs` counts the occupied slots
and occupied slots hold pairwise distinct pids — its return value equals
the number of occupied slots whose probe reported alive.  (It is not the
number of slots still occupied after reaping: a slot kept occupied after
an ambiguous probe failure is not counted.) -/
theorem reap_dead_kids_spec (env : Env) (s : Shm)
    (hinv : s.running_childs = occupiedCount s)
    (hinj : ∀ j, j < s.num_children → ∀ k, k < s.num_children → j ≠ k →
      s.pids j ≠ EMPTY_PIDSLOT → s.pids j ≠ s.pids k) :
    (reap_dead_kids env s).1 =
      aliveIn env s (List.range s.num_children) ∧
    (∀ j : Nat, (reap_dead_kids env s).2.pids j =
      if j < s.num_children ∧ s.pids j ≠ EMPTY_PIDSLOT ∧
          env.probe (s.pids j) = Probe.esrch
      then EMPTY_PIDSLOT else s.pids j) := by
  have h := reap_loop_spec env (List.range s.num_children) s 0
    (List.nodup_range _) (fun i hi => List.mem_range.mp hi) hinv hinj
    (by unfold occupiedCount; omega)
  have hdef : reap_dead_kids env s =
      reap_loop env (List.range s.num_children) s 0 := rfl
  constructor
  · rw [hdef, h.1]
    omega
  · intro j
    rw [hdef, h.2 j]
    simp [List.mem_range]

/-- C8, counterexample.  One occupied slot (pid 5) whose probe fails with
an errno other than `ESRCH`: the slot is (correctly) not reaped, one slot
is still occupied after reaping, yet `reap_dead_kids` returns 0 — the
return value is the number of alive-probed slots, not the number of slots
still occupied. -/
theorem reap_dead_kids_return_not_occupied :
    (reap_dead_kids envAllErr shm1).1 = 0 ∧
    (reap_dead_kids envAllErr shm1).2.pids 0 = 5 ∧
    occupiedCount (reap_dead_kids envAllErr shm1).2 = 1 := by
  refine ⟨by decide, by decide, by decide⟩

/-- C8 amended, witness: pids 7 (dead) and 9 (alive); the reaper clears
slot 0 and returns 1, the number of alive-probed occupied slots. -/
theorem reap_dead_kids_spec_witness :
    (reap_dead_kids envC8 shmC8).1 =
      aliveIn envC8 shmC8 (List.range shmC8.num_children) ∧
    (reap_dead_kids envC8 shmC8).2.pids 0 =
      (if 0 < shmC8.num_children ∧ shmC8.pids 0 ≠ EMPTY_PIDSLOT ∧
          envC8.probe (shmC8.pids 0) = Probe.esrch
        then EMPTY_PIDSLOT else shmC8.pids 0) :=
  ⟨(reap_dead_kids_spec envC8 shmC8 (by decide) (by decide)).1,
    (reap_dead_kids_spec envC8 shmC8 (by decide) (by decide)).2 0⟩

/-- C1 amended, witness: concrete state with delta 600001 and a valid
occupied pid. -/
theorem check_shm_sanity_throughput_latch_witness :
    (check_shm_sanity envAllValid shm1).1 = ShmStatus.SHM_OK ∧
    (check_shm_sanity envAllValid shm1).2.exit_reason =
      ExitReason.EXIT_SHM_CORRUPTION ∧
    (check_shm_sanity envAllValid shm1).2.previous_op_count =
      shm1.total_syscalls_done :=
  check_shm_sanity_throughput_latch envAllValid shm1
    (by decide) (by intro i _ _; rfl) (by decide) (by decide) (by decide)

end Trinity
